import Mathlib

/-!
Shallow embedding of the semantic-model-to-SQL compilation pipeline
(LookML data model, field mapper, grounding index, query planner and
SQL builder), translated from the Python sources.

Modelling conventions:
* Python `str` is modelled by `String` (operated on through its
  character list); only the ASCII fragment of the Unicode-aware
  Python behaviour is modelled, which covers every string the
  pipeline manipulates.
* Python `float` relevance scores only ever hold sums of the
  increments 1.0, 2.0 and 3.0, which are exact in floating point,
  so scores are modelled as `Nat`.
* Python `dict` is modelled as an insertion-ordered association
  list (`List (String × _)`): updating an existing key keeps its
  position, inserting a new key appends.
* Python `set` is modelled as a list deduplicated at first
  occurrence.
* Fallible code (`raise ValueError`) is modelled with `Except`.
-/

namespace TextToSql

/-- Characters of the Python regex class `\s` and of `str.strip()`
with no argument (ASCII fragment): space, tab, newline, carriage
return, vertical tab, form feed. -/
def isPyWs (c : Char) : Bool :=
  c = ' ' || c = '\t' || c = '\n' || c = '\r' || c = Char.ofNat 11 || c = Char.ofNat 12

/-- ASCII decimal digit, the regex class `\d` (ASCII fragment). -/
def isAsciiDigit (c : Char) : Bool := '0' ≤ c && c ≤ '9'

/-- ASCII letter. -/
def isAsciiAlpha (c : Char) : Bool := ('a' ≤ c && c ≤ 'z') || ('A' ≤ c && c ≤ 'Z')

/-- Word characters of the Python regex class `\w` (ASCII fragment). -/
def isWordChar (c : Char) : Bool := isAsciiAlpha c || isAsciiDigit c || c = '_'

/-- Python `str.strip()` with no argument: drop whitespace from both ends. -/
def pyStripWs (s : String) : String :=
  String.mk (((s.data.dropWhile isPyWs).reverse.dropWhile isPyWs).reverse)

/-- Python `str.strip(chars)`: drop any of the given characters from both ends. -/
def pyStripChars (strip : List Char) (s : String) : String :=
  String.mk (((s.data.dropWhile (strip.contains ·)).reverse.dropWhile (strip.contains ·)).reverse)

/-- Python `str.lower()` (ASCII fragment). -/
def lowerStr (s : String) : String := String.mk (s.data.map Char.toLower)

/-- Membership of `needle` as a contiguous sublist of a list;
models the Python substring test `needle in hay`. -/
def listContainsSub (needle : List Char) : List Char → Bool
  | [] => needle.isEmpty
  | c :: rest => needle.isPrefixOf (c :: rest) || listContainsSub needle rest

/-- Python substring test `needle in hay`. -/
def strContainsSub (hay needle : String) : Bool := listContainsSub needle.data hay.data

/-- The decimal digit character of `n % 10`. -/
def natDigitChar (n : Nat) : Char := Char.ofNat (48 + n % 10)

/-- Fueled digit emitter (the fuel only drives structural recursion;
it starts at `n`, which always covers the number of digits, so the
zero-fuel branch is unreachable from `natToDigits`). -/
def natToDigitsAux : Nat → Nat → List Char → List Char
  | 0, n, acc => natDigitChar n :: acc
  | fuel + 1, n, acc =>
    if n < 10 then natDigitChar n :: acc
    else natToDigitsAux fuel (n / 10) (natDigitChar n :: acc)

/-- Decimal representation of a natural number, as the character
list Python would produce for an `int` in an f-string. -/
def natToDigits (n : Nat) : List Char := natToDigitsAux n n []

/-- Decimal string of a natural number. -/
def natToStr (n : Nat) : String := String.mk (natToDigits n)

/-- Python truthiness of an optional string: `None` and the empty
string are falsy. -/
def optStrTruthy : Option String → Bool
  | none => false
  | some s => !s.isEmpty

/- ## Association lists modelling Python dicts -/

/-- First-match lookup, `d.get(k)` / `d[k]`. -/
def alistGet {α : Type} (m : List (String × α)) (k : String) : Option α :=
  (m.find? (fun p => p.1 == k)).map Prod.snd

/-- Model of `d[k] = v`: replace the value at the first occurrence of the key,
keeping its position, otherwise append the new binding. -/
def alistInsert {α : Type} (m : List (String × α)) (k : String) (v : α) : List (String × α) :=
  match m with
  | [] => [(k, v)]
  | (k', v') :: rest =>
    if k' == k then (k', v) :: rest else (k', v') :: alistInsert rest k v

/-- Model of `d.update(d2)`: insert every binding of the second dict in order. -/
def alistUpdate {α : Type} (m m' : List (String × α)) : List (String × α) :=
  m'.foldl (fun acc p => alistInsert acc p.1 p.2) m

/-- Add `v` to the value at key `k` (0 when absent); models
`d[k] = d.get(k, 0) + v` on a score dict. -/
def alistIncr (m : List (String × Nat)) (k : String) (v : Nat) : List (String × Nat) :=
  match alistGet m k with
  | some old => alistInsert m k (old + v)
  | none => m ++ [(k, v)]

/- ## Stable descending sort by score

Python `sorted(xs, key=lambda x: x[1], reverse=True)` is a stable
sort placing larger scores first; it is modelled by Mathlib's
(stable, structurally recursive) insertion sort under the relation
"has score greater than or equal". -/

/-- Model of `a` may be placed before `b` in a descending sort. -/
def scoreGE {α : Type} (a b : α × Nat) : Prop := b.2 ≤ a.2

instance {α : Type} : DecidableRel (@scoreGE α) := fun a b => Nat.decLe b.2 a.2

instance {α : Type} : IsTotal (α × Nat) scoreGE :=
  ⟨fun a b => (Nat.le_total b.2 a.2).elim Or.inl Or.inr⟩

instance {α : Type} : IsTrans (α × Nat) scoreGE :=
  ⟨fun _ _ _ hab hbc => Nat.le_trans hbc hab⟩

/-- Stable sort by descending score. -/
def sortByScoreDesc {α : Type} (l : List (α × Nat)) : List (α × Nat) :=
  l.insertionSort scoreGE

/- ## `enforce_limit` (sql_builder.py lines 236-243) -/

/-- One anchored attempt of the regex `LIMIT\s+\d+\b` (IGNORECASE) at
the head of the list: the five letters of LIMIT case-insensitively,
one or more whitespace characters, one or more digits, then a word
boundary (end of input or a non-word character). -/
def limitHere (l : List Char) : Bool :=
  match l with
  | c1 :: c2 :: c3 :: c4 :: c5 :: rest =>
    if c1.toLower = 'l' && c2.toLower = 'i' && c3.toLower = 'm' &&
        c4.toLower = 'i' && c5.toLower = 't' then
      let ws := rest.takeWhile isPyWs
      let r2 := rest.dropWhile isPyWs
      let ds := r2.takeWhile isAsciiDigit
      let r3 := r2.dropWhile isAsciiDigit
      !ws.isEmpty && !ds.isEmpty &&
        (match r3 with
         | [] => true
         | c :: _ => !isWordChar c)
    else false
  | _ => false

/-- Search for `\bLIMIT\s+\d+\b` at every position; the flag records
whether the current position is at a word boundary (start of the
string, or the previous character is not a word character). -/
def limitScan : Bool → List Char → Bool
  | _, [] => false
  | bnd, c :: rest => (bnd && limitHere (c :: rest)) || limitScan (!isWordChar c) rest

/-- Model of `re.search(r'\bLIMIT\s+\d+\b', sql, re.IGNORECASE)` succeeds. -/
def hasLimitClause (sql : String) : Bool := limitScan true sql.data

/-- Model of `SQLBuilder.enforce_limit`: return the SQL unchanged when a LIMIT
clause is already present, otherwise append one. -/
def enforce_limit (sql : String) (default_limit : Nat) : String :=
  if hasLimitClause sql then sql
  else sql ++ "\n" ++ "LIMIT " ++ natToStr default_limit

/- ## Field mapper (grounding/field_mapper.py) -/

/-- Replace every occurrence of the literal token of a table
placeholder by the replacement characters; models
`re.sub(table_pattern, table_ref, expression)` where the pattern is
the literal eight characters of the placeholder (matches are found
left to right, non-overlapping, and a replacement is not rescanned). -/
def tableRefScan (repl : List Char) : List Char → List Char
  | '$' :: '{' :: 'T' :: 'A' :: 'B' :: 'L' :: 'E' :: '}' :: rest2 =>
    repl ++ tableRefScan repl rest2
  | c :: rest => c :: tableRefScan repl rest
  | [] => []

/-- The replacement for one matched field token with the given
content between the braces, under the regex
`\$\{(?:([^.}]+)\.)?([^}]+)\}`: the content splits as `view.field`
at its first dot when both parts are nonempty, otherwise the whole
content is a bare field of the current view; then the qualified key
`view.field`, and after it the bare field name, are looked up in the
mappings; when both lookups fail the original token is kept
(the source only logs a warning). -/
def fieldTokenRepl (current_view : String) (field_mappings : List (String × String))
    (content : List Char) : List Char :=
  let before := content.takeWhile (· ≠ '.')
  let after := content.dropWhile (· ≠ '.')
  let vf : List Char × List Char :=
    match after with
    | '.' :: f => if before.isEmpty || f.isEmpty then (current_view.data, content) else (before, f)
    | _ => (current_view.data, content)
  let field_key := String.mk (vf.1 ++ '.' :: vf.2)
  match alistGet field_mappings field_key with
  | some v => v.data
  | none =>
    match alistGet field_mappings (String.mk vf.2) with
    | some v => v.data
    | none => '$' :: '{' :: (content ++ ['}'])

/-- Fueled scanner for field tokens
`\$\{(?:([^.}]+)\.)?([^}]+)\}`; positions where the regex cannot
match are copied through unchanged, as `re.sub` does. The fuel only
drives structural recursion: it starts at the length of the list and
every recursive call strictly shrinks the list, so the zero-fuel
branch is unreachable from `fieldRefScan`. -/
def fieldRefScanAux (current_view : String) (field_mappings : List (String × String)) :
    Nat → List Char → List Char
  | _, [] => []
  | 0, l => l
  | fuel + 1, '$' :: '{' :: rest2 =>
    match rest2.dropWhile (· ≠ '}') with
    | '}' :: rest3 =>
      let content := rest2.takeWhile (· ≠ '}')
      if content.isEmpty then
        '$' :: fieldRefScanAux current_view field_mappings fuel ('{' :: rest2)
      else
        fieldTokenRepl current_view field_mappings content ++
          fieldRefScanAux current_view field_mappings fuel rest3
    | _ => '$' :: fieldRefScanAux current_view field_mappings fuel ('{' :: rest2)
  | fuel + 1, c :: rest => c :: fieldRefScanAux current_view field_mappings fuel rest

/-- Scan for field tokens and replace each one. -/
def fieldRefScan (current_view : String) (field_mappings : List (String × String))
    (l : List Char) : List Char :=
  fieldRefScanAux current_view field_mappings l.length l

/-- Mutable state of the `FieldMapper` class: registered table aliases. -/
structure FieldMapper where
  table_aliases : List (String × String)
deriving DecidableEq

/-- A freshly constructed `FieldMapper`. -/
def FieldMapper.empty : FieldMapper := ⟨[]⟩

/-- Model of `FieldMapper.set_table_alias`. -/
def set_table_alias (m : FieldMapper) (table_name al : String) : FieldMapper :=
  ⟨alistInsert m.table_aliases table_name al⟩

/-- Model of `FieldMapper.clear_aliases`. -/
def clear_aliases (_ : FieldMapper) : FieldMapper := ⟨[]⟩

/-- Model of `FieldMapper._resolve_table_references`: replace each table
placeholder with the registered alias for the table when one exists,
else with the raw table name. -/
def resolve_table_references (m : FieldMapper) (expression : String) (table_name : String) :
    String :=
  let table_ref := (alistGet m.table_aliases table_name).getD table_name
  String.mk (tableRefScan table_ref.data expression.data)

/-- Model of `FieldMapper._resolve_field_references`. -/
def resolve_field_references (expression : String) (current_view : String)
    (field_mappings : List (String × String)) : String :=
  String.mk (fieldRefScan current_view field_mappings expression.data)

/-- Model of `FieldMapper.resolve_lookml_expression`: empty expressions pass
through; otherwise table references are resolved first, then field
references. -/
def resolve_lookml_expression (m : FieldMapper) (expression table_name view_name : String)
    (field_mappings : List (String × String)) : String :=
  if expression.isEmpty then expression
  else
    resolve_field_references (resolve_table_references m expression table_name)
      view_name field_mappings

/-- Model of `FieldMapper.is_simple_column_reference`: the stripped expression
matches `^\$\{TABLE\}\.[\w_]+$`. -/
def is_simple_column_reference (expression : String) : Bool :=
  match (pyStripWs expression).data with
  | '$' :: '{' :: 'T' :: 'A' :: 'B' :: 'L' :: 'E' :: '}' :: '.' :: rest =>
    !rest.isEmpty && rest.all isWordChar
  | _ => false

/-- Model of `FieldMapper.extract_column_name`: for a simple column reference,
everything after the first dot of the original (unstripped)
expression, as produced by a maximal-split-of-one at the dot in the
source. -/
def extract_column_name (expression : String) : Option String :=
  if is_simple_column_reference expression then
    some (String.mk (expression.data.dropWhile (· ≠ '.')).tail)
  else none

/- ## LookML data model (lookml/models.py) -/

/-- Model of `LookMLDimension`. -/
structure LookMLDimension where
  name : String
  type : Option String := none
  sql : Option String := none
  description : Option String := none
  hidden : Bool := false
  primary_key : Bool := false
  timeframes : List String := []
deriving DecidableEq

/-- Model of `LookMLMeasure`. -/
structure LookMLMeasure where
  name : String
  type : Option String := none
  sql : Option String := none
  description : Option String := none
  hidden : Bool := false
deriving DecidableEq

/-- Model of `LookMLView`; the dimension and measure dicts are
insertion-ordered association lists. -/
structure LookMLView where
  name : String
  sql_table_name : Option String := none
  dimensions : List (String × LookMLDimension) := []
  measures : List (String × LookMLMeasure) := []
  primary_key : Option String := none
deriving DecidableEq

/-- Model of `LookMLJoin`. -/
structure LookMLJoin where
  view_name : String
  type : String := "left_outer"
  sql_on : Option String := none
  relationship : Option String := none
  required : Bool := false
deriving DecidableEq

/-- Model of `LookMLExplore`. -/
structure LookMLExplore where
  name : String
  from_view : String
  view_name : Option String := none
  joins : List LookMLJoin := []
  hidden : Bool := false
deriving DecidableEq

/-- Model of `LookMLExplore.base_view_name`: `self.view_name or self.from_view`
(Python truthiness: `None` and the empty string fall through). -/
def LookMLExplore.base_view_name (e : LookMLExplore) : String :=
  match e.view_name with
  | some v => if v.isEmpty then e.from_view else v
  | none => e.from_view

/-- Model of `LookMLModel` (the `include` list is named `includes` here because
of a Lean keyword clash). -/
structure LookMLModel where
  name : String
  connection : Option String := none
  includes : List String := []
  views : List (String × LookMLView) := []
  explores : List (String × LookMLExplore) := []
deriving DecidableEq

/-- Model of `LookMLProject`. -/
structure LookMLProject where
  models : List (String × LookMLModel) := []
  views : List (String × LookMLView) := []
deriving DecidableEq

/-- Model of `LookMLProject.get_all_views`: start from the standalone views,
then `dict.update` with every model view map in model order. -/
def get_all_views (p : LookMLProject) : List (String × LookMLView) :=
  (p.models.map Prod.snd).foldl (fun acc m => alistUpdate acc m.views) (alistUpdate [] p.views)

/-- Model of `LookMLProject.get_all_explores`: explore names are prefixed with
the owning model name. -/
def get_all_explores (p : LookMLProject) : List (String × LookMLExplore) :=
  (p.models.map Prod.snd).foldl
    (fun acc m =>
      m.explores.foldl (fun acc2 pr => alistInsert acc2 (m.name ++ "." ++ pr.1) pr.2) acc)
    []

/- ## BigQuery metadata (bigquery/metadata_loader.py, consumed only) -/

/-- Model of `ColumnMetadata`. -/
structure ColumnMetadata where
  table_name : String
  column_name : String
  data_type : String
  description : Option String := none
  field_path : Option String := none
deriving DecidableEq

/-- Model of `TableMetadata`. -/
structure TableMetadata where
  table_name : String
  columns : List (String × ColumnMetadata)
  row_count : Option Nat := none
deriving DecidableEq

/- ## Grounding index (grounding/index.py) -/

/-- Model of `FieldInfo`: a field combining LookML and BigQuery metadata. -/
structure FieldInfo where
  name : String
  field_type : String
  lookml_type : Option String
  sql_expression : Option String
  lookml_description : Option String
  bigquery_description : Option String
  bigquery_data_type : Option String
  view_name : String
  table_name : Option String
  hidden : Bool := false
deriving DecidableEq

/-- Model of `FieldInfo.qualified_name`. -/
def FieldInfo.qualified_name (f : FieldInfo) : String := f.view_name ++ "." ++ f.name

instance : Inhabited FieldInfo :=
  ⟨{ name := "", field_type := "", lookml_type := none, sql_expression := none,
     lookml_description := none, bigquery_description := none, bigquery_data_type := none,
     view_name := "", table_name := none }⟩

/-- Model of `ExploreInfo`. -/
structure ExploreInfo where
  name : String
  base_view : String
  available_fields : List (String × FieldInfo)
  join_graph : List (String × String)
  join_conditions : List (String × String)
deriving DecidableEq

/-- The read-only state of a constructed `GroundingIndex`. -/
structure GroundingIndex where
  lookml_project : LookMLProject
  explores : List (String × ExploreInfo)
  field_glossary : List (String × List FieldInfo)
deriving DecidableEq

/-- The backtick character. -/
def backtickChar : Char := Char.ofNat 96

/-- Cleaning applied to `sql_table_name` before metadata lookup
(`_extract_referenced_tables` / `_get_table_metadata_for_view`):
strip backticks and double quotes, then keep the segment after the
last dot when a dot is present. -/
def cleanMetaTableName (sql_table_name : String) : String :=
  let t := pyStripChars [backtickChar, '"'] sql_table_name
  if t.data.contains '.' then String.mk (t.data.reverse.takeWhile (· ≠ '.')).reverse else t

/-- Deduplicate keeping first occurrences; models accumulating into a
Python set (which keeps one copy of each element). -/
def dedupAppend (l : List String) : List String :=
  l.foldl (fun acc s => if acc.contains s then acc else acc ++ [s]) []

/-- Model of `GroundingIndex._extract_referenced_tables`. -/
def extract_referenced_tables (p : LookMLProject) : List String :=
  dedupAppend ((get_all_views p).filterMap (fun pr =>
    if optStrTruthy pr.2.sql_table_name then
      some (cleanMetaTableName (pr.2.sql_table_name.getD ""))
    else none))

/-- Model of `GroundingIndex._get_table_metadata_for_view`. -/
def get_table_metadata_for_view (view : LookMLView) (tm : List (String × TableMetadata)) :
    Option TableMetadata :=
  if optStrTruthy view.sql_table_name then
    alistGet tm (cleanMetaTableName (view.sql_table_name.getD ""))
  else none

/-- Model of `GroundingIndex._process_view_fields`: non-hidden dimensions then
non-hidden measures of a view, keyed by qualified name, with
dimensions enriched from BigQuery column metadata when their SQL is a
simple column reference. -/
def process_view_fields (view : LookMLView) (tm : Option TableMetadata) :
    List (String × FieldInfo) :=
  let dimStep := view.dimensions.foldl (fun acc pr =>
    let dim := pr.2
    if dim.hidden then acc
    else
      let bq_column : Option ColumnMetadata :=
        match tm with
        | some t =>
          if optStrTruthy dim.sql then
            match extract_column_name (dim.sql.getD "") with
            | some cn => if cn.isEmpty then none else alistGet t.columns cn
            | none => none
          else none
        | none => none
      let fi : FieldInfo :=
        { name := pr.1, field_type := "dimension", lookml_type := dim.type,
          sql_expression := dim.sql, lookml_description := dim.description,
          bigquery_description := bq_column.bind (fun c => c.description),
          bigquery_data_type := bq_column.map (fun c => c.data_type),
          view_name := view.name, table_name := view.sql_table_name,
          hidden := dim.hidden }
      alistInsert acc fi.qualified_name fi) []
  view.measures.foldl (fun acc pr =>
    let m := pr.2
    if m.hidden then acc
    else
      let fi : FieldInfo :=
        { name := pr.1, field_type := "measure", lookml_type := m.type,
          sql_expression := m.sql, lookml_description := m.description,
          bigquery_description := none, bigquery_data_type := none,
          view_name := view.name, table_name := view.sql_table_name,
          hidden := m.hidden }
      alistInsert acc fi.qualified_name fi) dimStep

/-- One explore of `GroundingIndex._build_explores`: merge the fields
of the base view and of every joined view, and record the join graph
and join conditions. -/
def build_explore_info (p : LookMLProject) (tm : List (String × TableMetadata))
    (explore_name : String) (explore : LookMLExplore) : ExploreInfo :=
  let all_views := get_all_views p
  let baseFields :=
    match alistGet all_views explore.base_view_name with
    | some bv => process_view_fields bv (get_table_metadata_for_view bv tm)
    | none => []
  let step := explore.joins.foldl
    (fun (acc : List (String × FieldInfo) × List (String × String) × List (String × String))
        join =>
      match alistGet all_views join.view_name with
      | some jv =>
        let fields := process_view_fields jv (get_table_metadata_for_view jv tm)
        (alistUpdate acc.1 fields,
         alistInsert acc.2.1 join.view_name join.type,
         if optStrTruthy join.sql_on then
           alistInsert acc.2.2 join.view_name (join.sql_on.getD "")
         else acc.2.2)
      | none => acc)
    (baseFields, [], [])
  { name := explore_name, base_view := explore.base_view_name,
    available_fields := step.1, join_graph := step.2.1, join_conditions := step.2.2 }

/-- Model of `GroundingIndex._build_explores`. -/
def build_explores (p : LookMLProject) (tm : List (String × TableMetadata)) :
    List (String × ExploreInfo) :=
  (get_all_explores p).foldl
    (fun acc pr => alistInsert acc pr.1 (build_explore_info p tm pr.1 pr.2)) []

/-- Stop words of `GroundingIndex._extract_keywords`. -/
def glossaryStopWords : List String :=
  ["the", "and", "for", "are", "but", "not", "you", "all", "can", "had", "her", "was",
   "one", "our", "out", "day", "get", "has", "him", "his", "how", "man", "new", "now",
   "old", "see", "two", "way", "who", "boy", "did", "its", "let", "put", "say", "she",
   "too", "use"]

/-- Fueled splitter into maximal runs of word characters (the fuel
only drives structural recursion: it starts at the length of the
list and every call strictly shrinks the list, so the zero-fuel
branch is unreachable from `wordRuns`). -/
def wordRunsAux : Nat → List Char → List (List Char)
  | _, [] => []
  | 0, _ => []
  | fuel + 1, c :: rest =>
    if isWordChar c then
      (c :: rest.takeWhile isWordChar) :: wordRunsAux fuel (rest.dropWhile isWordChar)
    else wordRunsAux fuel rest

/-- Maximal runs of word characters in a character list. -/
def wordRuns (l : List Char) : List (List Char) := wordRunsAux l.length l

/-- Model of `GroundingIndex._extract_keywords`: matches of
`\b[a-zA-Z]{3,}\b` over the lowercased text (maximal word runs made
only of letters, of length at least three), minus stop words. -/
def extract_keywords (text : String) : List String :=
  (wordRuns (lowerStr text).data).filterMap (fun run =>
    if run.length ≥ 3 && run.all isAsciiAlpha then
      let w := String.mk run
      if glossaryStopWords.contains w then none else some w
    else none)

/-- Model of `GroundingIndex._add_to_glossary`. -/
def add_to_glossary (g : List (String × List FieldInfo)) (term : String) (fi : FieldInfo) :
    List (String × List FieldInfo) :=
  let t := pyStripWs (lowerStr term)
  if t.data.length > 2 then
    match alistGet g t with
    | some l => if l.contains fi then g else alistInsert g t (l ++ [fi])
    | none => alistInsert g t [fi]
  else g

/-- Model of `GroundingIndex._build_field_glossary`: every field contributes
its own (lowercased) name plus the keywords of its LookML and
BigQuery descriptions. -/
def build_field_glossary (explores : List (String × ExploreInfo)) :
    List (String × List FieldInfo) :=
  explores.foldl (fun g pr =>
    pr.2.available_fields.foldl (fun g2 fpr =>
      let fi := fpr.2
      let g3 := add_to_glossary g2 fi.name fi
      let g4 :=
        if optStrTruthy fi.lookml_description then
          (extract_keywords (fi.lookml_description.getD "")).foldl
            (fun acc w => add_to_glossary acc w fi) g3
        else g3
      if optStrTruthy fi.bigquery_description then
        (extract_keywords (fi.bigquery_description.getD "")).foldl
          (fun acc w => add_to_glossary acc w fi) g4
      else g4) g) []

/-- Model of `GroundingIndex.__init__` / `_build_index`, with the Metadata
Collaborator abstracted as a pure lookup from table name to its
metadata (the external `load_metadata_for_tables` response). -/
def build_index (p : LookMLProject) (loader : String → Option TableMetadata) : GroundingIndex :=
  let tables := extract_referenced_tables p
  let tm := tables.filterMap (fun t => (loader t).map (fun m => (t, m)))
  let explores := build_explores p tm
  { lookml_project := p, explores := explores, field_glossary := build_field_glossary explores }

/-- Model of `GroundingIndex.get_explore_by_name`. -/
def get_explore_by_name (idx : GroundingIndex) (explore_name : String) : Option ExploreInfo :=
  alistGet idx.explores explore_name

/-- The relevance score one term contributes to one explore in
`find_relevant_explores`: 2 for EACH available (qualified) field name
that contains the lowercased term as a substring, plus 1 for each
glossary entry of the term whose field belongs to the explore. -/
def exploreScoreForTerm (g : List (String × List FieldInfo)) (ei : ExploreInfo)
    (term : String) : Nat :=
  let tl := lowerStr term
  let fieldMatches :=
    (ei.available_fields.map Prod.fst).countP (fun k => strContainsSub (lowerStr k) tl)
  let glossMatches :=
    match alistGet g tl with
    | some l =>
      l.countP (fun fi => (ei.available_fields.map Prod.fst).contains fi.qualified_name)
    | none => 0
  2 * fieldMatches + glossMatches

/-- The total relevance score of one explore for a term list. -/
def exploreScore (g : List (String × List FieldInfo)) (terms : List String)
    (ei : ExploreInfo) : Nat :=
  (terms.map (exploreScoreForTerm g ei)).sum

/-- Model of `GroundingIndex.find_relevant_explores`: score every explore,
keep the strictly positive scores, sort stably by descending score. -/
def find_relevant_explores (idx : GroundingIndex) (query_terms : List String) :
    List (String × Nat) :=
  sortByScoreDesc
    ((idx.explores.map (fun pr => (pr.1, exploreScore idx.field_glossary query_terms pr.2))).filter
      (fun pr => decide (0 < pr.2)))

/-- One term pass of `GroundingIndex.find_relevant_fields` over the
score dict: 3 per field whose bare name contains the term, 1 per
glossary entry of the term available in the explore. -/
def fieldScorePass (ei : ExploreInfo) (g : List (String × List FieldInfo))
    (scores : List (String × Nat)) (term : String) : List (String × Nat) :=
  let tl := lowerStr term
  let s1 := ei.available_fields.foldl (fun acc pr =>
    if strContainsSub (lowerStr pr.2.name) tl then alistIncr acc pr.2.qualified_name 3
    else acc) scores
  match alistGet g tl with
  | some l =>
    l.foldl (fun acc fi =>
      if (ei.available_fields.map Prod.fst).contains fi.qualified_name then
        alistIncr acc fi.qualified_name 1
      else acc) s1
  | none => s1

/-- Model of `GroundingIndex.find_relevant_fields`. -/
def find_relevant_fields (idx : GroundingIndex) (explore_name : String)
    (query_terms : List String) : List (FieldInfo × Nat) :=
  match alistGet idx.explores explore_name with
  | none => []
  | some ei =>
    let scores := query_terms.foldl (fieldScorePass ei idx.field_glossary) []
    sortByScoreDesc
      (scores.map (fun pr => ((alistGet ei.available_fields pr.1).getD default, pr.2)))

/- ## Query planner (generator/planner.py) -/

/-- Model of `QueryPlan` (the `llm_response` payload is opaque to the modelled
code and is represented by a unit placeholder). -/
structure QueryPlan where
  explore_name : String
  selected_fields : List FieldInfo
  required_joins : List String
  filters : List String
  limit : Option Nat
  has_aggregation : Bool
  llm_generated_sql : Option String := none
  llm_response : Option Unit := none
deriving DecidableEq

instance : Inhabited QueryPlan :=
  ⟨{ explore_name := "", selected_fields := [], required_joins := [], filters := [],
     limit := none, has_aggregation := false }⟩

/-- Stop words of `QueryPlanner._extract_query_terms`. -/
def plannerStopWords : List String :=
  ["the", "and", "or", "but", "in", "on", "at", "to", "for", "of", "with",
   "by", "from", "up", "about", "into", "over", "after", "what", "when",
   "where", "how", "show", "get", "find", "list", "give", "me", "i", "want",
   "need", "can", "you", "please"]

/-- Model of `QueryPlanner._extract_query_terms`: tokens of
`\b[a-zA-Z_]\w*\b` over the lowercased query (maximal word runs whose
first character is a letter or underscore), minus stop words and
tokens of length at most two. -/
def extract_query_terms (query : String) : List String :=
  let terms := (wordRuns (lowerStr query).data).filterMap (fun run =>
    match run with
    | c :: _ => if isAsciiAlpha c || c = '_' then some (String.mk run) else none
    | [] => none)
  terms.filter (fun t => !plannerStopWords.contains t && t.data.length > 2)

/-- One anchored attempt of a regex `\bkw\s+(\d+)` at the head of the
list (the boundary is checked by the caller): the keyword literally,
one or more whitespace characters, then the maximal nonempty digit
run, which is returned. -/
def keywordNumHere (kw : List Char) (l : List Char) : Option (List Char) :=
  if kw.isPrefixOf l then
    let rest := l.drop kw.length
    let ws := rest.takeWhile isPyWs
    let r2 := rest.dropWhile isPyWs
    let ds := r2.takeWhile isAsciiDigit
    if !ws.isEmpty && !ds.isEmpty then some ds else none
  else none

/-- Leftmost match of `\bkw\s+(\d+)`; the flag records whether the
position is at a word boundary. -/
def keywordNumScan (kw : List Char) : Bool → List Char → Option (List Char)
  | _, [] => none
  | bnd, c :: rest =>
    match (if bnd then keywordNumHere kw (c :: rest) else none) with
    | some ds => some ds
    | none => keywordNumScan kw (!isWordChar c) rest

/-- The integer value of a digit run, as Python `int` would parse it. -/
def digitsToNat (ds : List Char) : Nat :=
  ds.foldl (fun acc c => acc * 10 + (c.toNat - 48)) 0

/-- Model of `QueryPlanner._extract_limit`: the patterns `limit N`, `top N`,
`first N` tried in that order over the lowercased query. -/
def extract_limit (query : String) : Option Nat :=
  let q := (lowerStr query).data
  match keywordNumScan "limit".data true q with
  | some ds => some (digitsToNat ds)
  | none =>
    match keywordNumScan "top".data true q with
    | some ds => some (digitsToNat ds)
    | none => (keywordNumScan "first".data true q).map digitsToNat

/-- Model of `QueryPlanner._select_explore`: top-scoring relevant explore,
else the first explore of the index, else failure. -/
def select_explore (idx : GroundingIndex) (query_terms : List String) : Option String :=
  match find_relevant_explores idx query_terms with
  | [] => idx.explores.head?.map Prod.fst
  | (n, _) :: _ => some n

/-- Model of `QueryPlanner._select_fields`: fields scoring at least 1, with a
fallback to the first five non-hidden fields when nothing is
relevant; a first non-hidden dimension is appended when measures were
selected without any dimension; the result is truncated to ten
fields at the very end. -/
def select_fields (idx : GroundingIndex) (explore_name : String)
    (query_terms : List String) : List FieldInfo :=
  let rel := find_relevant_fields idx explore_name query_terms
  if rel.isEmpty then
    match alistGet idx.explores explore_name with
    | some ei => ((ei.available_fields.map Prod.snd).filter (fun f => !f.hidden)).take 5
    | none => []
  else
    let selected := (rel.filter (fun pr => decide (1 ≤ pr.2))).map Prod.fst
    let measures := selected.filter (fun f => f.field_type == "measure")
    let dimensions := selected.filter (fun f => f.field_type == "dimension")
    let selected2 :=
      if !measures.isEmpty && dimensions.isEmpty then
        match alistGet idx.explores explore_name with
        | some ei =>
          match (ei.available_fields.map Prod.snd).find?
              (fun f => f.field_type == "dimension" && !f.hidden) with
          | some d => selected ++ [d]
          | none => selected
        | none => selected
      else selected
    selected2.take 10

/-- Model of `QueryPlanner._determine_required_joins`: the distinct view names
of selected fields that differ from the base view, truncated to
`max_joins` entries when the set is larger (the Python set iteration
order at the truncation is hash-dependent; it is modelled as first
occurrence order, and only the cardinality is relied upon). -/
def determine_required_joins (idx : GroundingIndex) (explore_name : String)
    (selected_fields : List FieldInfo) (max_joins : Nat) : List String :=
  match alistGet idx.explores explore_name with
  | none => []
  | some ei =>
    let req := dedupAppend
      ((selected_fields.filter (fun f => f.view_name != ei.base_view)).map
        (fun f => f.view_name))
    if req.length > max_joins then req.take max_joins else req

/-- Anchored attempt of `last\s+(\d+)\s+unit` (note: the source
patterns carry no word boundaries): the literal `last`, whitespace,
digits, whitespace, then the unit literally (its optional plural `s`
does not affect the captured digits). -/
def lastUnitHere (unit : List Char) (l : List Char) : Option (List Char) :=
  if ("last".data).isPrefixOf l then
    let rest := l.drop 4
    let ws := rest.takeWhile isPyWs
    let r2 := rest.dropWhile isPyWs
    let ds := r2.takeWhile isAsciiDigit
    let r3 := r2.dropWhile isAsciiDigit
    let ws2 := r3.takeWhile isPyWs
    let r4 := r3.dropWhile isPyWs
    if !ws.isEmpty && !ds.isEmpty && !ws2.isEmpty && unit.isPrefixOf r4 then some ds
    else none
  else none

/-- Leftmost match of `last\s+(\d+)\s+unit`. -/
def lastUnitScan (unit : List Char) : List Char → Option (List Char)
  | [] => none
  | c :: rest =>
    match lastUnitHere unit (c :: rest) with
    | some ds => some ds
    | none => lastUnitScan unit rest

/-- Anchored attempt of `this\s+unit`. -/
def thisUnitHere (unit : List Char) (l : List Char) : Bool :=
  ("this".data).isPrefixOf l &&
    (let rest := l.drop 4
     !(rest.takeWhile isPyWs).isEmpty && unit.isPrefixOf (rest.dropWhile isPyWs))

/-- Leftmost match of `this\s+unit`. -/
def thisUnitScan (unit : List Char) : List Char → Bool
  | [] => false
  | c :: rest => thisUnitHere unit (c :: rest) || thisUnitScan unit rest

/-- Model of `QueryPlanner._extract_basic_filters`: when a time or date
dimension is among the selected fields, at most one relative-time
filter is produced from the first matching pattern. -/
def extract_basic_filters (query : String) (selected_fields : List FieldInfo) :
    List String :=
  let time_fields := selected_fields.filter
    (fun f => f.lookml_type == some "time" || f.lookml_type == some "date")
  match time_fields with
  | [] => []
  | tf :: _ =>
    let q := (lowerStr query).data
    let fieldRef := tf.view_name ++ "." ++ tf.name
    match lastUnitScan "day".data q with
    | some ds =>
      ["DATE_DIFF(CURRENT_DATE(), DATE(" ++ fieldRef ++ "), DAY) <= " ++ String.mk ds]
    | none =>
      match lastUnitScan "month".data q with
      | some ds =>
        ["DATE_DIFF(CURRENT_DATE(), DATE(" ++ fieldRef ++ "), MONTH) <= " ++ String.mk ds]
      | none =>
        if thisUnitScan "year".data q then
          ["EXTRACT(YEAR FROM " ++ fieldRef ++ ") = EXTRACT(YEAR FROM CURRENT_DATE())"]
        else if thisUnitScan "month".data q then
          ["DATE_TRUNC(DATE(" ++ fieldRef ++ "), MONTH) = DATE_TRUNC(CURRENT_DATE(), MONTH)"]
        else []

/-- Model of `QueryPlanner.plan_query` for a planner constructed with the
given `max_joins`: `None` models a planning failure. -/
def plan_query (idx : GroundingIndex) (max_joins : Nat) (query : String)
    (default_limit : Nat) : Option QueryPlan :=
  let terms := extract_query_terms query
  let limit :=
    match extract_limit query with
    | some n => if n = 0 then default_limit else n
    | none => default_limit
  match select_explore idx terms with
  | none => none
  | some en =>
    let fields := select_fields idx en terms
    if fields.isEmpty then none
    else some
      { explore_name := en
        selected_fields := fields
        required_joins := determine_required_joins idx en fields max_joins
        filters := extract_basic_filters query fields
        limit := some limit
        has_aggregation := fields.any (fun f => f.field_type == "measure") }

/- ## SQL builder (generator/sql_builder.py) -/

/-- Model of `SQLBuilder._get_table_alias`: lowercased view name with hyphens
replaced by underscores. -/
def get_table_alias (view_name : String) : String :=
  String.mk ((lowerStr view_name).data.map (fun c => if c = '-' then '_' else c))

/-- Model of `SQLBuilder._convert_join_type`. -/
def convert_join_type (lookml_join_type : String) : String :=
  if lookml_join_type == "left_outer" then "LEFT"
  else if lookml_join_type == "right_outer" then "RIGHT"
  else if lookml_join_type == "full_outer" then "FULL OUTER"
  else if lookml_join_type == "inner" then "INNER"
  else if lookml_join_type == "cross" then "CROSS"
  else "LEFT"

/-- The one-character backtick string. -/
def backtickStr : String := String.mk [backtickChar]

/-- Model of `SQLBuilder._clean_table_name`: strip backticks and quotes, then
backtick-quote dotted (fully qualified) names. -/
def clean_table_name (table_name : String) : String :=
  let cleaned := pyStripChars [backtickChar, '"', Char.ofNat 39] table_name
  if cleaned.data.contains '.' && !(backtickStr.data.isPrefixOf cleaned.data) then
    backtickStr ++ cleaned ++ backtickStr
  else cleaned

/-- Model of `SQLBuilder._build_select_clause` (the alias state is the one in
force when the clause is built). -/
def build_select_clause (m : FieldMapper) (selected_fields : List FieldInfo) : String :=
  String.intercalate ",\n" (selected_fields.map (fun f =>
    if optStrTruthy f.sql_expression then
      "  " ++
        resolve_lookml_expression m (f.sql_expression.getD "") (f.table_name.getD "")
          f.view_name [] ++ " AS " ++ f.name
    else
      "  " ++ get_table_alias f.view_name ++ "." ++ f.name ++ " AS " ++ f.name))

/-- Model of `SQLBuilder._build_join_clauses`: one clause per declared join of
the explore that is in the required set; a joined view that is
missing or lacks a physical table is skipped with a warning only.
Returns the clauses and the updated alias state. -/
def build_join_clauses (idx : GroundingIndex) (m : FieldMapper) (explore_info : ExploreInfo)
    (required_joins : List String) : List String × FieldMapper :=
  let all_views := get_all_views idx.lookml_project
  match (get_all_explores idx.lookml_project).find? (fun pr => pr.1 == explore_info.name) with
  | none => ([], m)
  | some expPr =>
    expPr.2.joins.foldl (fun (acc : List String × FieldMapper) join =>
      if required_joins.contains join.view_name then
        match alistGet all_views join.view_name with
        | some jv =>
          if optStrTruthy jv.sql_table_name then
            let join_table := clean_table_name (jv.sql_table_name.getD "")
            let join_alias := get_table_alias join.view_name
            let m2 := set_table_alias acc.2 join_table join_alias
            let jt := convert_join_type join.type
            let clause0 := jt ++ " JOIN " ++ join_table ++ " AS " ++ join_alias
            let clause :=
              if optStrTruthy join.sql_on then
                clause0 ++ " ON " ++
                  resolve_lookml_expression m2 (join.sql_on.getD "") join_table
                    join.view_name []
              else clause0
            (acc.1 ++ [clause], m2)
          else acc
        | none => acc
      else acc) ([], m)

/-- Model of `SQLBuilder._build_from_clause`: fails when the base view is
missing or has no physical table; otherwise emits the base table with
its alias followed by the join clauses. -/
def build_from_clause (idx : GroundingIndex) (m : FieldMapper) (explore_info : ExploreInfo)
    (required_joins : List String) : Except String (String × FieldMapper) :=
  match alistGet (get_all_views idx.lookml_project) explore_info.base_view with
  | none =>
    .error ("Base view " ++ explore_info.base_view ++ " not found or missing sql_table_name")
  | some bv =>
    if optStrTruthy bv.sql_table_name then
      let base_table := clean_table_name (bv.sql_table_name.getD "")
      let base_alias := get_table_alias explore_info.base_view
      let m2 := set_table_alias m base_table base_alias
      let fromBase := base_table ++ " AS " ++ base_alias
      if required_joins.isEmpty then .ok (fromBase, m2)
      else
        let jcs := build_join_clauses idx m2 explore_info required_joins
        if jcs.1.isEmpty then .ok (fromBase, jcs.2)
        else .ok (fromBase ++ "\n" ++ String.intercalate "\n" jcs.1, jcs.2)
    else
      .error ("Base view " ++ explore_info.base_view ++ " not found or missing sql_table_name")

/-- Model of `SQLBuilder._build_where_clause`. -/
def build_where_clause (m : FieldMapper) (filters : List String) : Option String :=
  if filters.isEmpty then none
  else some (String.intercalate " AND "
    (filters.map (fun f => resolve_lookml_expression m f "" "" [])))

/-- Model of `SQLBuilder._build_group_by_clause`: positional references to
every non-measure selected field, only under aggregation; `None`
when the list would be empty. -/
def build_group_by_clause (selected_fields : List FieldInfo) (has_aggregation : Bool) :
    Option String :=
  if !has_aggregation then none
  else
    let gb := selected_fields.enum.filterMap (fun pr =>
      if pr.2.field_type != "measure" then some (natToStr (pr.1 + 1)) else none)
    if gb.isEmpty then none else some (String.intercalate ", " gb)

/-- Model of `SQLBuilder._build_limit_clause` (Python truthiness: a limit of
`None` or `0` produces no clause). -/
def build_limit_clause (limit : Option Nat) : Option String :=
  match limit with
  | some n => if n = 0 then none else some ("LIMIT " ++ natToStr n)
  | none => none

/-- Model of `SQLBuilder.build_sql`: pre-built LLM SQL is returned stripped;
otherwise the clauses are assembled (the SELECT clause is built
before the FROM clause registers any alias, so it always sees an
empty alias table). `Except.error` models `raise ValueError`. -/
def build_sql (idx : GroundingIndex) (plan : QueryPlan) : Except String String :=
  if optStrTruthy plan.llm_generated_sql then
    .ok (pyStripWs (plan.llm_generated_sql.getD ""))
  else
    match alistGet idx.explores plan.explore_name with
    | none => .error ("Explore not found: " ++ plan.explore_name)
    | some ei =>
      let m0 := clear_aliases FieldMapper.empty
      let select_clause := build_select_clause m0 plan.selected_fields
      match build_from_clause idx m0 ei plan.required_joins with
      | .error e => .error e
      | .ok fm =>
        let where_clause := build_where_clause fm.2 plan.filters
        let group_by_clause := build_group_by_clause plan.selected_fields plan.has_aggregation
        let limit_clause := build_limit_clause plan.limit
        let parts :=
          ["SELECT\n" ++ select_clause, "FROM " ++ fm.1] ++
          (if optStrTruthy where_clause then ["WHERE " ++ where_clause.getD ""] else []) ++
          (if optStrTruthy group_by_clause then ["GROUP BY " ++ group_by_clause.getD ""] else []) ++
          (if optStrTruthy limit_clause then [limit_clause.getD ""] else [])
        .ok (String.intercalate "\n" parts)

/- ## Concrete fixtures used by witnesses and counterexamples -/

/-- The field of an explore of an index with the given qualified name
(default `FieldInfo` when absent). -/
def fieldOf (idx : GroundingIndex) (explore_name qualified : String) : FieldInfo :=
  ((alistGet idx.explores explore_name).map
    (fun ei => (alistGet ei.available_fields qualified).getD default)).getD default

/-- A project with one view `users` (dimensions `id` [primary key] and
`name`, measure `count`) and one explore `users` with no joins, as in
the end-to-end property of the specification. -/
def projUsers : LookMLProject :=
  { models := [("m",
      { name := "m",
        explores := [("users", { name := "users", from_view := "users" })] })],
    views := [("users",
      { name := "users", sql_table_name := some "users",
        dimensions :=
          [("id", { name := "id", type := some "number", sql := some "${TABLE}.id",
                    primary_key := true }),
           ("name", { name := "name", type := some "string", sql := some "${TABLE}.name" })],
        measures :=
          [("count", { name := "count", type := some "count",
                       sql := some "COUNT(${TABLE}.id)" })] })] }

/-- The grounding index of `projUsers` with no physical metadata. -/
def idxUsers : GroundingIndex := build_index projUsers (fun _ => none)

/-- The rule-based plan of the end-to-end property: only the measure
`count` selected, no joins, no filters, limit 100. -/
def planUsersCount : QueryPlan :=
  { explore_name := "m.users"
    selected_fields := [fieldOf idxUsers "m.users" "users.count"]
    required_joins := []
    filters := []
    limit := some 100
    has_aggregation := true }

/-- A project whose explore offers ten measures `total_0` … `total_9`
(all matching the term `total`) and one dimension `id`. -/
def projTotals : LookMLProject :=
  { models := [("m",
      { name := "m",
        explores := [("users", { name := "users", from_view := "users" })] })],
    views := [("users",
      { name := "users", sql_table_name := some "users",
        dimensions :=
          [("id", { name := "id", type := some "number", sql := some "${TABLE}.id" })],
        measures :=
          [("total_0", { name := "total_0", type := some "sum", sql := some "${TABLE}.t" }),
           ("total_1", { name := "total_1", type := some "sum", sql := some "${TABLE}.t" }),
           ("total_2", { name := "total_2", type := some "sum", sql := some "${TABLE}.t" }),
           ("total_3", { name := "total_3", type := some "sum", sql := some "${TABLE}.t" }),
           ("total_4", { name := "total_4", type := some "sum", sql := some "${TABLE}.t" }),
           ("total_5", { name := "total_5", type := some "sum", sql := some "${TABLE}.t" }),
           ("total_6", { name := "total_6", type := some "sum", sql := some "${TABLE}.t" }),
           ("total_7", { name := "total_7", type := some "sum", sql := some "${TABLE}.t" }),
           ("total_8", { name := "total_8", type := some "sum", sql := some "${TABLE}.t" }),
           ("total_9", { name := "total_9", type := some "sum", sql := some "${TABLE}.t" })] })] }

/-- The grounding index of `projTotals` with no physical metadata. -/
def idxTotals : GroundingIndex := build_index projTotals (fun _ => none)

/-- A project with a base view `orders` carrying a physical table and
a joined view `users` that LACKS a physical table reference. -/
def projOrders : LookMLProject :=
  { models := [("m",
      { name := "m",
        explores := [("orders",
          { name := "orders", from_view := "orders",
            joins := [{ view_name := "users", type := "left_outer",
                        sql_on := some "${orders.id} = ${users.uid}" }] })] })],
    views :=
      [("orders",
        { name := "orders", sql_table_name := some "orders",
          dimensions :=
            [("id", { name := "id", type := some "number", sql := some "${TABLE}.id" })] }),
       ("users",
        { name := "users", sql_table_name := none,
          dimensions :=
            [("uname", { name := "uname", type := some "string",
                         sql := some "${TABLE}.uname" })] })] }

/-- The grounding index of `projOrders` with no physical metadata. -/
def idxOrders : GroundingIndex := build_index projOrders (fun _ => none)

/-- A plan over `projOrders` whose required joins include the view
`users`, which lacks a physical table reference. -/
def planOrdersJoin : QueryPlan :=
  { explore_name := "m.orders"
    selected_fields :=
      [fieldOf idxOrders "m.orders" "orders.id", fieldOf idxOrders "m.orders" "users.uname"]
    required_joins := ["users"]
    filters := []
    limit := some 10
    has_aggregation := false }

/-- A standalone view named `users` bound to table `a`. -/
def viewUsersA : LookMLView := { name := "users", sql_table_name := some "a" }

/-- A model-embedded view also named `users`, bound to table `b`. -/
def viewUsersB : LookMLView := { name := "users", sql_table_name := some "b" }

/-- A project in which a standalone view and a model-embedded view
share the name `users`. -/
def projCollide : LookMLProject :=
  { models := [("m", { name := "m", views := [("users", viewUsersB)] })],
    views := [("users", viewUsersA)] }

/-- A plan carrying pre-built SQL (the LLM escape hatch). -/
def planPrebuilt : QueryPlan :=
  { explore_name := "m.users"
    selected_fields := [fieldOf idxUsers "m.users" "users.id"]
    required_joins := ["ghost"]
    filters := ["1 = 2"]
    limit := some 7
    has_aggregation := true
    llm_generated_sql := some "  SELECT 1 FROM t  " }

/-- Whether an `Except` result is an error. -/
def exceptIsError {ε α : Type} : Except ε α → Bool
  | .error _ => true
  | .ok _ => false

instance {ε α : Type} [DecidableEq ε] [DecidableEq α] : DecidableEq (Except ε α) := fun a b =>
  match a, b with
  | .error e, .error f =>
    if h : e = f then isTrue (by rw [h]) else isFalse (fun he => by cases he; exact h rfl)
  | .ok x, .ok y =>
    if h : x = y then isTrue (by rw [h]) else isFalse (fun he => by cases he; exact h rfl)
  | .error _, .ok _ => isFalse (fun he => by cases he)
  | .ok _, .error _ => isFalse (fun he => by cases he)

/-- The `ExploreInfo` registered under a name (a junk default when absent). -/
def exploreInfoOf (idx : GroundingIndex) (n : String) : ExploreInfo :=
  (alistGet idx.explores n).getD ⟨"", "", [], [], []⟩

/-- Modelled from the spec, for comparison with the source scoring of
`find_relevant_explores`: the score one term contributes is a flat 2
when the term substring-matches ANY available field name of the
explore (not 2 per matching field), plus 1 per glossary match whose
field belongs to the explore. -/
def exploreScoreClaimedForTerm (g : List (String × List FieldInfo)) (ei : ExploreInfo)
    (term : String) : Nat :=
  let tl := lowerStr term
  (if (ei.available_fields.map Prod.fst).any (fun k => strContainsSub (lowerStr k) tl)
    then 2 else 0) +
  (match alistGet g tl with
   | some l =>
     l.countP (fun fi => (ei.available_fields.map Prod.fst).contains fi.qualified_name)
   | none => 0)

/-- Modelled from the spec: total claimed score of an explore. -/
def exploreScoreClaimed (g : List (String × List FieldInfo)) (terms : List String)
    (ei : ExploreInfo) : Nat :=
  (terms.map (exploreScoreClaimedForTerm g ei)).sum

/- ## General lemmas -/

theorem takeWhile_of_all {p : α → Bool} :
    ∀ {l : List α}, (∀ a ∈ l, p a = true) → l.takeWhile p = l
  | [], _ => rfl
  | a :: l, h => by
    rw [List.takeWhile_cons_of_pos (h a (List.mem_cons_self a l))]
    exact congrArg (a :: ·) (takeWhile_of_all (fun b hb => h b (List.mem_cons_of_mem a hb)))

theorem dropWhile_of_all {p : α → Bool} :
    ∀ {l : List α}, (∀ a ∈ l, p a = true) → l.dropWhile p = []
  | [], _ => rfl
  | a :: l, h => by
    rw [List.dropWhile_cons_of_pos (h a (List.mem_cons_self a l))]
    exact dropWhile_of_all (fun b hb => h b (List.mem_cons_of_mem a hb))

theorem isAsciiDigit_natDigitChar (n : Nat) : isAsciiDigit (natDigitChar n) = true := by
  have h : n % 10 < 10 := Nat.mod_lt _ (by omega)
  unfold isAsciiDigit natDigitChar
  interval_cases h : n % 10 <;> decide

theorem natToDigitsAux_ne_nil :
    ∀ (fuel n : Nat) (acc : List Char), natToDigitsAux fuel n acc ≠ []
  | 0, n, acc => by simp [natToDigitsAux]
  | fuel + 1, n, acc => by
    rw [natToDigitsAux]
    by_cases hn : n < 10
    · rw [if_pos hn]; simp
    · rw [if_neg hn]
      exact natToDigitsAux_ne_nil fuel (n / 10) _

theorem natToDigits_ne_nil (n : Nat) : natToDigits n ≠ [] :=
  natToDigitsAux_ne_nil n n []

theorem natToDigitsAux_all_digits :
    ∀ (fuel n : Nat) (acc : List Char), (∀ c ∈ acc, isAsciiDigit c = true) →
      ∀ c ∈ natToDigitsAux fuel n acc, isAsciiDigit c = true
  | 0, n, acc => by
    intro hacc c hc
    rw [natToDigitsAux] at hc
    rcases List.mem_cons.mp hc with h | h
    · exact h ▸ isAsciiDigit_natDigitChar n
    · exact hacc c h
  | fuel + 1, n, acc => by
    intro hacc c hc
    rw [natToDigitsAux] at hc
    by_cases hn : n < 10
    · rw [if_pos hn] at hc
      rcases List.mem_cons.mp hc with h | h
      · exact h ▸ isAsciiDigit_natDigitChar n
      · exact hacc c h
    · rw [if_neg hn] at hc
      refine natToDigitsAux_all_digits fuel (n / 10) _ ?_ c hc
      intro c' hc'
      rcases List.mem_cons.mp hc' with h | h
      · exact h ▸ isAsciiDigit_natDigitChar n
      · exact hacc c' h

theorem natToDigits_all_digits (n : Nat) :
    ∀ c ∈ natToDigits n, isAsciiDigit c = true :=
  natToDigitsAux_all_digits n n [] (by intro c hc; cases hc)

theorem digit_not_pyWs {c : Char} (h : isAsciiDigit c = true) : isPyWs c = false := by
  simp only [isAsciiDigit, Bool.and_eq_true, decide_eq_true_eq] at h
  simp only [isPyWs, Bool.or_eq_false_iff, decide_eq_false_iff_not]
  have h48 : 48 ≤ c.val := h.1
  have h57 : c.val ≤ 57 := h.2
  refine ⟨⟨⟨⟨⟨?_, ?_⟩, ?_⟩, ?_⟩, ?_⟩, ?_⟩ <;> rintro rfl <;> simp_all

/-- A successful anchored limit match right after a space and digits. -/
theorem limitHere_upper (n : Nat) :
    limitHere ('L' :: 'I' :: 'M' :: 'I' :: 'T' :: ' ' :: natToDigits n) = true := by
  obtain ⟨d, tl, hds⟩ : ∃ d tl, natToDigits n = d :: tl := by
    cases h : natToDigits n with
    | nil => exact absurd h (natToDigits_ne_nil n)
    | cons d tl => exact ⟨d, tl, rfl⟩
  have hall := natToDigits_all_digits n
  rw [hds] at hall
  have hd : isAsciiDigit d = true := hall d (List.mem_cons_self d tl)
  rw [limitHere]
  rw [hds]
  rw [List.takeWhile_cons_of_pos (by decide), List.dropWhile_cons_of_pos (by decide)]
  rw [List.takeWhile_cons_of_neg (by simp [digit_not_pyWs hd]),
    List.dropWhile_cons_of_neg (by simp [digit_not_pyWs hd])]
  simp [takeWhile_of_all hall, dropWhile_of_all hall]

theorem limitScan_suffix (n : Nat) (b : Bool) :
    limitScan b ('\n' :: 'L' :: 'I' :: 'M' :: 'I' :: 'T' :: ' ' :: natToDigits n) = true := by
  rw [limitScan, limitScan]
  rw [limitHere_upper n]
  simp [isWordChar, isAsciiAlpha, isAsciiDigit]

theorem limitScan_append (t : List Char) (ht : ∀ b, limitScan b t = true) :
    ∀ (s : List Char) (b : Bool), limitScan b (s ++ t) = true := by
  intro s
  induction s with
  | nil => intro b; exact ht b
  | cons c s ih =>
    intro b
    rw [List.cons_append, limitScan, ih]
    simp

theorem hasLimitClause_enforced (sql : String) (n : Nat) :
    hasLimitClause (sql ++ "\n" ++ "LIMIT " ++ natToStr n) = true := by
  show limitScan true (sql ++ "\n" ++ "LIMIT " ++ natToStr n).data = true
  have hdata : (sql ++ "\n" ++ "LIMIT " ++ natToStr n).data =
      sql.data ++ ('\n' :: 'L' :: 'I' :: 'M' :: 'I' :: 'T' :: ' ' :: natToDigits n) := by
    simp [natToStr]
  rw [hdata]
  exact limitScan_append _ (limitScan_suffix n) sql.data true

/-- Claim C8: `enforce_limit` is idempotent: a second application with
the same default returns the first result unchanged — when the SQL
already contains a LIMIT clause it is returned as is, and an appended
`LIMIT N` is detected by the following application. -/
theorem C8_enforce_limit_idempotent (sql : String) (N : Nat) :
    enforce_limit (enforce_limit sql N) N = enforce_limit sql N := by
  by_cases h : hasLimitClause sql = true
  · have e1 : enforce_limit sql N = sql := by rw [enforce_limit, if_pos h]
    rw [e1]
    exact e1
  · have e1 : enforce_limit sql N = sql ++ "\n" ++ "LIMIT " ++ natToStr N := by
      rw [enforce_limit, if_neg h]
    rw [e1, enforce_limit, if_pos (hasLimitClause_enforced sql N)]

/- ## Lemmas on the stable descending sort -/

theorem sortByScoreDesc_perm {α : Type} (l : List (α × Nat)) :
    List.Perm (sortByScoreDesc l) l :=
  List.perm_insertionSort scoreGE l

theorem sortByScoreDesc_sorted {α : Type} (l : List (α × Nat)) :
    (sortByScoreDesc l).Pairwise scoreGE :=
  List.sorted_insertionSort scoreGE l

theorem sortByScoreDesc_filter_score {α : Type} (l : List (α × Nat)) (s : Nat) :
    (sortByScoreDesc l).filter (fun p => p.2 == s) = l.filter (fun p => p.2 == s) := by
  have hmem : ∀ a ∈ l.filter (fun p => p.2 == s), a.2 = s := by
    intro a ha
    have := List.of_mem_filter ha
    simpa using this
  have hpw : (l.filter (fun p => p.2 == s)).Pairwise scoreGE := by
    apply List.pairwise_of_forall_mem_list
    intro a ha b hb
    show b.2 ≤ a.2
    rw [hmem a ha, hmem b hb]
  have hsub : List.Sublist (l.filter (fun p => p.2 == s)) (sortByScoreDesc l) :=
    List.sublist_insertionSort hpw (List.filter_sublist l)
  have hsub2 : List.Sublist (l.filter (fun p => p.2 == s))
      ((sortByScoreDesc l).filter (fun p => p.2 == s)) := by
    have h2 := hsub.filter (fun p => p.2 == s)
    rw [List.filter_filter] at h2
    simpa only [Bool.and_self] using h2
  have hlen : (l.filter (fun p => p.2 == s)).length =
      ((sortByScoreDesc l).filter (fun p => p.2 == s)).length :=
    (((sortByScoreDesc_perm l).filter (fun p => p.2 == s)).length_eq).symm
  exact (hsub2.eq_of_length hlen).symm

/- ## Lemmas on association lists -/

theorem alistGet_cons {α : Type} (p : String × α) (rest : List (String × α)) (k : String) :
    alistGet (p :: rest) k = if p.1 == k then some p.2 else alistGet rest k := by
  by_cases h : (p.1 == k) = true
  · rw [if_pos h]
    simp only [alistGet]
    rw [List.find?_cons_of_pos rest h]
    rfl
  · rw [if_neg h]
    simp only [alistGet]
    rw [List.find?_cons_of_neg rest h]

theorem alistGet_insert_self {α : Type} (m : List (String × α)) (k : String) (v : α) :
    alistGet (alistInsert m k v) k = some v := by
  induction m with
  | nil => simp [alistGet, alistInsert]
  | cons p rest ih =>
    by_cases h : p.1 == k
    · simp [alistInsert, h, alistGet_cons]
    · rw [alistInsert]
      rw [if_neg (by simpa using h)]
      rw [alistGet_cons, if_neg h]
      exact ih

theorem alistGet_insert_ne {α : Type} (m : List (String × α)) (k k' : String) (v : α)
    (h : k' ≠ k) : alistGet (alistInsert m k v) k' = alistGet m k' := by
  induction m with
  | nil =>
    rw [alistInsert, alistGet_cons]
    simp [alistGet, List.find?, Ne.symm h]
  | cons p rest ih =>
    by_cases hp : (p.1 == k) = true
    · rw [alistInsert, if_pos hp, alistGet_cons, alistGet_cons]
      have hk : p.1 = k := by simpa using hp
      have hne : ¬ (((p.1 : String) == k') = true) := by simp [hk, Ne.symm h]
      rw [if_neg hne, if_neg hne]
    · rw [alistInsert]
      rw [if_neg hp]
      rw [alistGet_cons, alistGet_cons, ih]

theorem alistGet_update_not_mem {α : Type} (n : String) :
    ∀ (m' m : List (String × α)), n ∉ m'.map Prod.fst →
      alistGet (alistUpdate m m') n = alistGet m n := by
  intro m'
  induction m' with
  | nil => intro m _; rfl
  | cons p rest ih =>
    intro m h
    have hn : n ≠ p.1 := fun he => h (by simp [he])
    have hrest : n ∉ rest.map Prod.fst := fun hm => h (by simp [hm])
    show alistGet (alistUpdate (alistInsert m p.1 p.2) rest) n = alistGet m n
    rw [ih (alistInsert m p.1 p.2) hrest, alistGet_insert_ne m p.1 n p.2 hn]

theorem alistGet_update_of_mem {α : Type} (n : String) (v : α) :
    ∀ (m' m : List (String × α)), (m'.map Prod.fst).Nodup → alistGet m' n = some v →
      alistGet (alistUpdate m m') n = some v := by
  intro m'
  induction m' with
  | nil => intro m _ h; simp [alistGet, List.find?] at h
  | cons p rest ih =>
    intro m hnd h
    rw [List.map_cons, List.nodup_cons] at hnd
    by_cases hp : p.1 == n
    · have hkey : p.1 = n := by simpa using hp
      have hv : v = p.2 := by
        rw [alistGet_cons, if_pos hp] at h
        exact (Option.some.inj h).symm
      have hrest : n ∉ rest.map Prod.fst := hkey ▸ hnd.1
      show alistGet (alistUpdate (alistInsert m p.1 p.2) rest) n = some v
      rw [alistGet_update_not_mem n rest (alistInsert m p.1 p.2) hrest, hkey, hv]
      exact alistGet_insert_self m n p.2
    · have h2 : alistGet rest n = some v := by
        rw [alistGet_cons, if_neg hp] at h
        exact h
      exact ih (alistInsert m p.1 p.2) hnd.2 h2

/- ## Claim C2 -/

/-- Claim C2, counterexample: on the one-view one-explore project of
the claim, compiling the plan that selects only the measure `count`
with limit 100 yields SQL with the table alias `users` (the full
lowercased view name, not `u`) and no `GROUP BY` line at all (the
builder returns no clause when no non-measure field is selected),
so the output differs from the claimed string. -/
theorem C2_group_by_line_cex :
    build_sql idxUsers planUsersCount =
      .ok "SELECT\n  COUNT(users.id) AS count\nFROM users AS users\nLIMIT 100" ∧
    "SELECT\n  COUNT(users.id) AS count\nFROM users AS users\nLIMIT 100" ≠
      "SELECT\n  COUNT(u.id) AS count\nFROM users AS u\nGROUP BY \nLIMIT 100" :=
  ⟨by decide, by decide⟩

/-- Claim C2, amended: compiling the plan that selects only the
measure `count` with limit 100 on that project returns exactly
`SELECT\n  COUNT(users.id) AS count\nFROM users AS users\nLIMIT 100`:
the deterministic alias is the lowercased view name, and the GROUP BY
clause is omitted entirely in this degenerate case. -/
theorem C2_end_to_end_sql :
    build_sql idxUsers planUsersCount =
      .ok "SELECT\n  COUNT(users.id) AS count\nFROM users AS users\nLIMIT 100" := by
  decide

/- ## Claim C3 -/

/-- Claim C3, counterexample: on the `users` index, the single term
`users` substring-matches all three qualified field names of the
explore, and the code awards 2 PER matching field, returning score 6,
whereas the claimed scoring (2 if the term matches any field name at
all) gives 2. -/
theorem C3_explore_score_cex :
    find_relevant_explores idxUsers ["users"] = [("m.users", 6)] ∧
    exploreScoreClaimed idxUsers.field_glossary ["users"] (exploreInfoOf idxUsers "m.users") = 2 ∧
    (6 : Nat) ≠ 2 :=
  ⟨by decide, by decide, by decide⟩

/-- Claim C3, amended: `find_relevant_explores` assigns each explore
the score Σ over terms of (2 PER available field whose qualified name
contains the term as a substring) + (1 per glossary match whose field
belongs to the explore), keeps only explores with positive score, and
returns them sorted by descending score, ties broken stably by the
insertion order of the explore map (the filtered list keeps that
order, and sorting preserves the relative order of equal scores). -/
theorem C3_find_relevant_explores_correct (idx : GroundingIndex) (terms : List String) :
    List.Perm (find_relevant_explores idx terms)
      ((idx.explores.map (fun pr => (pr.1, exploreScore idx.field_glossary terms pr.2))).filter
        (fun pr => decide (0 < pr.2))) ∧
    (find_relevant_explores idx terms).Pairwise (fun a b => b.2 ≤ a.2) ∧
    ∀ s : Nat,
      (find_relevant_explores idx terms).filter (fun p => p.2 == s) =
        ((idx.explores.map (fun pr => (pr.1, exploreScore idx.field_glossary terms pr.2))).filter
          (fun pr => decide (0 < pr.2))).filter (fun p => p.2 == s) :=
  ⟨sortByScoreDesc_perm _, sortByScoreDesc_sorted _, fun s => sortByScoreDesc_filter_score _ s⟩

/- ## Claim C6 -/

/-- Claim C6, counterexample: flattening a project with a standalone
view `users` (table `a`) and a model-embedded view `users` (table
`b`) silently returns only the model view — no defect of any kind is
surfaced and the standalone definition is lost. -/
theorem C6_view_collision_cex :
    get_all_views projCollide = [("users", viewUsersB)] ∧ viewUsersB ≠ viewUsersA :=
  ⟨by decide, by decide⟩

/-- Claim C6, amended: a name collision at the flattened view level
is NOT surfaced: `get_all_views` silently overwrites, the
model-embedded view shadowing a standalone view of the same name
(`get_all_explores` avoids explore collisions by prefixing keys with
the model name, so only views can collide). -/
theorem C6_model_view_shadows_standalone (p : LookMLProject) (mName : String)
    (model : LookMLModel) (n : String) (vS vM : LookMLView)
    (hmodels : p.models = [(mName, model)])
    (_hS : alistGet p.views n = some vS)
    (hM : alistGet model.views n = some vM)
    (hnd : (model.views.map Prod.fst).Nodup) :
    alistGet (get_all_views p) n = some vM := by
  rw [get_all_views, hmodels]
  exact alistGet_update_of_mem n vM model.views (alistUpdate [] p.views) hnd hM

/-- Claim C6, witness: instantiating the shadowing theorem on the
concrete colliding project. -/
theorem C6_model_view_shadows_standalone_witness :
    alistGet (get_all_views projCollide) "users" = some viewUsersB :=
  C6_model_view_shadows_standalone projCollide "m"
    { name := "m", views := [("users", viewUsersB)] } "users" viewUsersA viewUsersB
    rfl (by decide) (by decide) (by decide)

/- ## Claim C9 -/

/-- Claim C9: `resolve_lookml_expression` replaces every table
placeholder with the alias registered for the physical table when
one exists and with the raw table name otherwise; in particular the
two concrete examples of the claim hold, and on an expression with
two table placeholders every occurrence is replaced, for any alias
registry and table name. -/
theorem C9_table_placeholder_resolution :
    resolve_lookml_expression FieldMapper.empty "${TABLE}.id" "users" "users" [] = "users.id" ∧
    resolve_lookml_expression (set_table_alias FieldMapper.empty "users" "u")
      "${TABLE}.id" "users" "users" [] = "u.id" ∧
    ∀ (m : FieldMapper) (t : String),
      resolve_table_references m "${TABLE}.x + ${TABLE}" t =
        ((alistGet m.table_aliases t).getD t) ++ ".x + " ++
          ((alistGet m.table_aliases t).getD t) := by
  refine ⟨by decide, by decide, fun m t => ?_⟩
  rw [resolve_table_references]
  rcases hr : (alistGet m.table_aliases t).getD t with ⟨rl⟩
  show String.mk (tableRefScan rl ("${TABLE}.x + ${TABLE}").data) =
    String.mk ((rl ++ (".x + ").data) ++ rl)
  apply congrArg String.mk
  show rl ++ '.' :: 'x' :: ' ' :: '+' :: ' ' :: (rl ++ []) = (rl ++ (".x + ").data) ++ rl
  simp

/- ## Claim C7 -/

/-- Claim C7: when a plan carries a non-empty pre-built SQL string,
`build_sql` returns exactly that string with surrounding whitespace
stripped, performing no clause assembly regardless of the other plan
fields. -/
theorem C7_llm_sql_passthrough (idx : GroundingIndex) (plan : QueryPlan) (s : String)
    (h1 : plan.llm_generated_sql = some s) (h2 : s.isEmpty = false) :
    build_sql idx plan = .ok (pyStripWs s) := by
  rw [build_sql, h1]
  rw [if_pos (by simp [optStrTruthy, h2])]
  rfl

/-- Claim C7, witness: the pass-through on a concrete plan whose
other fields would otherwise produce entirely different SQL. -/
theorem C7_llm_sql_passthrough_witness :
    build_sql idxUsers planPrebuilt = .ok "SELECT 1 FROM t" :=
  (C7_llm_sql_passthrough idxUsers planPrebuilt "  SELECT 1 FROM t  " rfl (by decide)).trans
    (by decide)

/- ## Claim C5 -/

/-- Claim C5, counterexample: for the request `limit 0` the first
pattern matches with N = 0, but the resulting plan carries the
default limit 100 (Python `0 or default` discards the extracted 0),
so the plan limit does not equal the matched N. -/
theorem C5_limit_zero_cex :
    (plan_query idxUsers 10 "limit 0" 100).map (fun p => p.limit) = some (some 100) ∧
    extract_limit "limit 0" = some 0 ∧ (0 : Nat) ≠ 100 :=
  ⟨by decide, by decide, by decide⟩

/-- Claim C5, amended: the plan limit equals the N of the first
matching pattern among `limit N`, `top N`, `first N` (in that
priority order over the lowercased text) whenever that N is nonzero,
and equals the default limit when no pattern matches OR when the
matched N is zero (a Python falsiness quirk of `extracted or
default`). -/
theorem C5_plan_limit (idx : GroundingIndex) (max_joins : Nat) (query : String)
    (default_limit : Nat) (plan : QueryPlan)
    (h : plan_query idx max_joins query default_limit = some plan) :
    plan.limit = some (match extract_limit query with
      | some n => if n = 0 then default_limit else n
      | none => default_limit) := by
  simp only [plan_query] at h
  rcases hse : select_explore idx (extract_query_terms query) with _ | en
  · rw [hse] at h
    cases h
  · simp only [hse] at h
    by_cases hf : (select_fields idx en (extract_query_terms query)).isEmpty = true
    · rw [if_pos hf] at h
      cases h
    · rw [if_neg hf] at h
      cases h
      rfl

/-- Claim C5, witness: a request with an explicit nonzero limit. -/
theorem C5_plan_limit_witness :
    ((plan_query idxUsers 10 "limit 5 count" 100).getD default).limit = some 5 :=
  (C5_plan_limit idxUsers 10 "limit 5 count" 100
    ((plan_query idxUsers 10 "limit 5 count" 100).getD default) (by decide)).trans (by decide)

/- ## Claim C10 -/

/-- The join set returned by the planner never exceeds the limit. -/
theorem determine_required_joins_card (idx : GroundingIndex) (en : String)
    (fields : List FieldInfo) (mj : Nat) :
    (determine_required_joins idx en fields mj).length ≤ mj := by
  unfold determine_required_joins
  cases hei : alistGet idx.explores en with
  | none => simp
  | some ei =>
    simp only
    split
    · simp
    · next hgt => exact Nat.le_of_not_lt hgt

/-- Claim C10: every `QueryPlan` returned by `plan_query` under a
planner configured with `max_joins = M` carries at most M required
joined views. -/
theorem C10_required_joins_bounded (idx : GroundingIndex) (max_joins : Nat) (query : String)
    (default_limit : Nat) (plan : QueryPlan)
    (h : plan_query idx max_joins query default_limit = some plan) :
    plan.required_joins.length ≤ max_joins := by
  simp only [plan_query] at h
  rcases hse : select_explore idx (extract_query_terms query) with _ | en
  · rw [hse] at h
    cases h
  · simp only [hse] at h
    by_cases hf : (select_fields idx en (extract_query_terms query)).isEmpty = true
    · rw [if_pos hf] at h
      cases h
    · rw [if_neg hf] at h
      cases h
      exact determine_required_joins_card idx en _ max_joins

/-- Claim C10, witness. -/
theorem C10_required_joins_bounded_witness :
    ((plan_query idxUsers 10 "count" 100).getD default).required_joins.length ≤ 10 :=
  C10_required_joins_bounded idxUsers 10 "count" 100
    ((plan_query idxUsers 10 "count" 100).getD default) (by decide)

/- ## Claim C1 -/

/-- Claim C1, counterexample: a plan whose required joins include the
view `users`, which has no `sql_table_name`, compiles SUCCESSFULLY —
the join view is skipped with only a logged warning, and the
resulting SQL contains no JOIN clause at all. -/
theorem C1_missing_join_table_cex :
    build_sql idxOrders planOrdersJoin =
      .ok "SELECT\n  orders.id AS id,\n  .uname AS uname\nFROM orders AS orders\nLIMIT 10" ∧
    listContainsSub "JOIN".data
      ("SELECT\n  orders.id AS id,\n  .uname AS uname\nFROM orders AS orders\nLIMIT 10").data =
      false :=
  ⟨by decide, by decide⟩

/-- Claim C1, amended: for a rule-based plan, `build_sql` fails
exactly when the explore is unknown or the BASE view is missing or
lacks a physical table reference; a required JOIN view without a
physical table reference never causes a failure — its join clause is
silently omitted (with a logged warning). -/
theorem C1_config_error_iff (idx : GroundingIndex) (plan : QueryPlan)
    (hllm : optStrTruthy plan.llm_generated_sql = false) :
    exceptIsError (build_sql idx plan) =
      (match alistGet idx.explores plan.explore_name with
       | none => true
       | some ei =>
         match alistGet (get_all_views idx.lookml_project) ei.base_view with
         | none => true
         | some bv => !optStrTruthy bv.sql_table_name) := by
  rw [build_sql, if_neg (by simp [hllm])]
  rcases hei : alistGet idx.explores plan.explore_name with _ | ei
  · simp [exceptIsError]
  · simp only
    rcases hbv : alistGet (get_all_views idx.lookml_project) ei.base_view with _ | bv
    · simp [build_from_clause, hbv, exceptIsError]
    · by_cases ht : optStrTruthy bv.sql_table_name = true
      · simp only [build_from_clause, hbv, ht, if_true]
        split
        · next heq =>
          exfalso
          split at heq
          · cases heq
          · split at heq <;> cases heq
        · simp [exceptIsError, ht]
      · simp only [build_from_clause, hbv]
        rw [if_neg ht]
        simp only [Bool.not_eq_true] at ht
        simp [exceptIsError, ht]

/-- Claim C1, witness: on the concrete plan requiring the
table-less join view, the amended theorem instantiates to a
successful (non-error) compilation. -/
theorem C1_config_error_iff_witness :
    exceptIsError (build_sql idxOrders planOrdersJoin) = false :=
  (C1_config_error_iff idxOrders planOrdersJoin (by decide)).trans (by decide)

/- ## Claim C4 -/

/-- Claim C4, counterexample: with ten measures all scoring at least
1 and no scoring dimension, the planner appends the first non-hidden
dimension but then truncates to ten fields, dropping it again: the
returned plan selects ten measures and NO dimension, although the
explore has a non-hidden dimension available. -/
theorem C4_dimension_dropped_cex :
    (plan_query idxTotals 10 "total" 100).map
      (fun p => p.selected_fields.all (fun f => f.field_type == "measure") &&
        decide (p.selected_fields.length = 10)) = some true ∧
    (exploreInfoOf idxTotals "m.users").available_fields.any
      (fun pr => pr.2.field_type == "dimension" && !pr.2.hidden) = true :=
  ⟨by decide, by decide⟩

/-- Claim C4, amended: when the scored selection (score at least 1)
contains a measure and no dimension, the planner appends the first
available non-hidden dimension, but the cap of ten is applied AFTER
the append, so the appended dimension is retained only when at most
nine fields were scored; in that case the selection contains the
dimension, and the selection never exceeds ten fields. -/
theorem C4_measure_gets_dimension (idx : GroundingIndex) (en : String) (terms : List String)
    (ei : ExploreInfo) (d : FieldInfo)
    (hei : alistGet idx.explores en = some ei)
    (hm : ((((find_relevant_fields idx en terms).filter (fun pr => decide (1 ≤ pr.2))).map
        Prod.fst).filter (fun f => f.field_type == "measure")).isEmpty = false)
    (hd : ((((find_relevant_fields idx en terms).filter (fun pr => decide (1 ≤ pr.2))).map
        Prod.fst).filter (fun f => f.field_type == "dimension")).isEmpty = true)
    (hlen : (((find_relevant_fields idx en terms).filter (fun pr => decide (1 ≤ pr.2))).map
        Prod.fst).length ≤ 9)
    (hfind : (ei.available_fields.map Prod.snd).find?
        (fun f => f.field_type == "dimension" && !f.hidden) = some d) :
    d ∈ select_fields idx en terms ∧ d.field_type = "dimension" ∧
      (select_fields idx en terms).length ≤ 10 := by
  have hdim : d.field_type = "dimension" := by
    have hp := List.find?_some hfind
    simp only [Bool.and_eq_true, beq_iff_eq] at hp
    exact hp.1
  have hrel : (find_relevant_fields idx en terms).isEmpty = false := by
    rcases hrelE : find_relevant_fields idx en terms with _ | ⟨p, rest⟩
    · rw [hrelE] at hm
      simp at hm
    · rfl
  rw [select_fields, hrel]
  simp only [Bool.false_eq_true, if_false, hm, Bool.not_false, hd, Bool.and_self, if_true,
    hei, hfind]
  have hlen2 : ((((find_relevant_fields idx en terms).filter
      (fun pr => decide (1 ≤ pr.2))).map Prod.fst) ++ [d]).length ≤ 10 := by
    rw [List.length_append]
    simpa using hlen
  rw [List.take_of_length_le hlen2]
  refine ⟨List.mem_append_right _ (by simp), hdim, by simpa using hlen2⟩

/-- Claim C4, witness: on the one-measure one-dimension index, the
scored selection is the single measure `count`, and the returned
selection also contains the dimension `id`. -/
theorem C4_measure_gets_dimension_witness :
    fieldOf idxUsers "m.users" "users.id" ∈ select_fields idxUsers "m.users" ["count"] ∧
    (fieldOf idxUsers "m.users" "users.id").field_type = "dimension" ∧
    (select_fields idxUsers "m.users" ["count"]).length ≤ 10 :=
  C4_measure_gets_dimension idxUsers "m.users" ["count"] (exploreInfoOf idxUsers "m.users")
    (fieldOf idxUsers "m.users" "users.id") (by decide) (by decide) (by decide) (by decide)
    (by decide)

end TextToSql
